import Mathlib

/-!
Verification of the rustyGlyphs repository (src/pythonGlyphs.py and
src/htlcSwaps.py) against its natural-language specification.

Byte strings are modelled as `List Nat` whose elements range over 0..255;
Python unbounded integers are modelled as `Nat` (all quantities in the
source are non-negative); fallible code returns `Except`.
-/

namespace RustyGlyphs

/-! ## Varint codec (src/pythonGlyphs.py lines 88-130, duplicated in
src/htlcSwaps.py lines 85-127) -/

/-- encode_varint: while i > 127, emit (i & 0x7F) | 0x80 and shift i right by
7; finally emit the last byte.  For a byte value, (i & 0x7F) | 0x80 is
i % 128 + 128 and i >> 7 is i / 128. -/
def encode_varint (i : Nat) : List Nat :=
  if h : 127 < i then (i % 128 + 128) :: encode_varint (i / 128) else [i]
termination_by i
decreasing_by exact Nat.div_lt_self (by omega) (by omega)

/-- Loop body of decode_varint: accumulate (byte & 0x7F) << shift into
decoded with bitwise or, stop at the first byte with the continuation bit
(0x80) clear.  For byte values 0..255, byte & 0x7F is byte % 128 and the
continuation bit is clear exactly when byte < 128. -/
def decodeVarintGo : List Nat → Nat → Nat → Nat
  | [], _, acc => acc
  | b :: rest, shift, acc =>
    if b < 128 then acc ||| ((b % 128) <<< shift)
    else decodeVarintGo rest (shift + 7) (acc ||| ((b % 128) <<< shift))

/-- decode_varint as written in the source: it returns only the accumulated
integer.  It exposes no remaining tail and raises no error on a truncated or
overlong stream. -/
def decode_varint (encoded : List Nat) : Nat :=
  decodeVarintGo encoded 0 0

inductive VarintError where
  | truncated
  | overflow
deriving DecidableEq, Repr

/-- Modelled from the spec (section 4.1): decode(bytes) returns
(value, rest_bytes), fails with Truncated if the stream ends with the
continuation bit still set, and fails with Overflow if the accumulated
shift exceeds 63 bits without termination.  This pair-returning decoder is
what the source's own callers (decode_glyphstone, decode_glyph_balance)
expect from decode_varint; the source's decode_varint does not provide it. -/
def decodeVarintSpecGo : List Nat → Nat → Nat → Except VarintError (Nat × List Nat)
  | [], _, _ => .error .truncated
  | b :: rest, shift, acc =>
    if 63 < shift then .error .overflow
    else if b < 128 then .ok (acc ||| ((b % 128) <<< shift), rest)
    else decodeVarintSpecGo rest (shift + 7) (acc ||| ((b % 128) <<< shift))

/-- Modelled from the spec (section 4.1): top-level pair-returning decoder. -/
def decode_varint_pair (bs : List Nat) : Except VarintError (Nat × List Nat) :=
  decodeVarintSpecGo bs 0 0

/-! ## Symbol codec and name validation
(src/pythonGlyphs.py lines 33-86 and 342-372) -/

/-- Python's test `char.isalpha() and char.isupper()` from
is_valid_glyph_name, modelled over the Basic Latin and Latin-1 Supplement
blocks (the uppercase letters there are A-Z, U+00C0-U+00D6 and
U+00D8-U+00DE); Python applies the same classification to all further
Unicode blocks, which this development never needs to distinguish. -/
def isUpperAlpha (c : Char) : Bool :=
  ('A' ≤ c && c ≤ 'Z') ||
  (0xC0 ≤ c.toNat && c.toNat ≤ 0xD6) ||
  (0xD8 ≤ c.toNat && c.toNat ≤ 0xDE)

/-- The spacer character used in glyph names. -/
def spacer : Char := '•'

/-- letter_count accumulated by the loop of is_valid_glyph_name. -/
def letterCount (s : List Char) : Nat := (s.filter isUpperAlpha).length

/-- The indexed character scan of is_valid_glyph_name (lines 362-370): each
character must be an uppercase letter or a spacer, and a spacer may not sit
at position 0, at the last position, or next to another spacer. -/
def nameCharsOk (s : List Char) : Bool :=
  (List.range s.length).all fun i =>
    if isUpperAlpha (s.getD i ' ') then true
    else if s.getD i ' ' = spacer then
      !(i == 0 || i == s.length - 1 || s.getD (i - 1) ' ' == spacer
        || s.getD (i + 1) ' ' == spacer)
    else false

/-- is_valid_glyph_name (lines 342-372): reject empty or overlong names,
scan the characters, and require 0 < letter_count ≤ 26. -/
def is_valid_glyph_name (s : List Char) : Bool :=
  if s.isEmpty || decide (26 < s.length) then false
  else nameCharsOk s && (decide (0 < letterCount s) && decide (letterCount s ≤ 26))

/-- symbol.replace applied to drop the spacers (line 51). -/
def removeSpacers (s : List Char) : List Char := s.filter (fun c => c ≠ spacer)

/-- Per-character value (ord(c) - ord('A') + BASE_OFFSET with
BASE_OFFSET = 1, line 54). -/
def letterVal (c : Char) : Nat := c.toNat - 65 + 1

/-- The accumulation loop of symbol_to_int over the reversed cleaned name:
the character at position i from the right contributes
letterVal(c) * 26 ^ i. -/
def valueRev : List Char → Nat
  | [] => 0
  | c :: rest => letterVal c + 26 * valueRev rest

/-- symbol_to_int (lines 33-55): validate, strip spacers, fold right to
left. -/
def symbol_to_int (s : List Char) : Except String Nat :=
  if is_valid_glyph_name s then .ok (valueRev (removeSpacers s).reverse)
  else .error "Invalid Glyph name"

/-- The source alphabet 'ABCDEFGHIJKLMNOPQRSTUVWXYZ'. -/
def alphabet : List Char :=
  ['A', 'B', 'C', 'D', 'E', 'F', 'G', 'H', 'I', 'J', 'K', 'L', 'M',
   'N', 'O', 'P', 'Q', 'R', 'S', 'T', 'U', 'V', 'W', 'X', 'Y', 'Z']

/-- The while loop of int_to_symbol (lines 82-84): divmod(num - 1, 26) and
prepend alphabet[remainder]; the remainder of the first iteration ends up
as the last character. -/
def intToSymbolGo (n : Nat) : List Char :=
  if _h : n = 0 then []
  else intToSymbolGo ((n - 1) / 26) ++ [alphabet.getD ((n - 1) % 26) 'A']
termination_by n
decreasing_by
  exact Nat.lt_of_le_of_lt (Nat.div_le_self _ _) (by omega)

/-- int_to_symbol (lines 57-86) with BASE_OFFSET = 1: rejects 0, otherwise
runs the loop.  (Negative input is impossible for Nat.) -/
def int_to_symbol (n : Nat) : Except String (List Char) :=
  if n = 0 then .error "Input must be a positive integer when using 1-26 numbering"
  else .ok (intToSymbolGo n)

/-! ## Glyphstone composition (src/pythonGlyphs.py lines 205-213, 263-265,
315-322 and 715-754) -/

/-- Standard UTF-8 encoding of one code point, as performed by Python's
str.encode on each character. -/
def utf8Char (c : Char) : List Nat :=
  if c.toNat < 0x80 then [c.toNat]
  else if c.toNat < 0x800 then [0xC0 + c.toNat / 64, 0x80 + c.toNat % 64]
  else if c.toNat < 0x10000 then
    [0xE0 + c.toNat / 4096, 0x80 + c.toNat / 64 % 64, 0x80 + c.toNat % 64]
  else
    [0xF0 + c.toNat / 262144, 0x80 + c.toNat / 4096 % 64,
     0x80 + c.toNat / 64 % 64, 0x80 + c.toNat % 64]

/-- UTF-8 bytes of a string. -/
def utf8 (s : List Char) : List Nat := (s.map utf8Char).flatten

/-- Python truthiness of an optional integer argument: None and 0 are both
falsy. -/
def truthy : Option Nat → Bool
  | some v => v != 0
  | none => false

/-- One optional tagged field of _add_optional_mint_params: emitted as
tag byte followed by the varint of the value only when the argument is
truthy (present and non-zero). -/
def optTagField (tag : Nat) (o : Option Nat) : List Nat :=
  if truthy o then tag :: encode_varint (o.getD 0) else []

/-- _add_optional_mint_params (lines 715-754): append the UTF-8 symbol if
the symbol string is non-empty, varint(premine) if premine is non-zero, and
then the tagged fields in the order C, A, S, H, O, F, each only if its
argument is truthy. -/
def _add_optional_mint_params (glyphstone_data : List Nat) (symbol : List Char)
    (premine : Nat)
    (mint_cap mint_amount start_height end_height start_offset end_offset : Option Nat) :
    List Nat :=
  glyphstone_data
    ++ (if symbol.isEmpty then [] else utf8 symbol)
    ++ (if premine = 0 then [] else encode_varint premine)
    ++ optTagField 0x43 mint_cap
    ++ optTagField 0x41 mint_amount
    ++ optTagField 0x53 start_height
    ++ optTagField 0x48 end_height
    ++ optTagField 0x4F start_offset
    ++ optTagField 0x46 end_offset

/-- The glyphstone payload built by etch_glyph (lines 205-213):
b'E' + varint(symbol_to_int(name)) + varint(divisibility), then the
optional mint parameters. -/
def etch_glyphstone_data (name : List Char) (divisibility : Nat)
    (symbol : List Char) (premine : Nat)
    (mint_cap mint_amount start_height end_height start_offset end_offset : Option Nat) :
    Except String (List Nat) :=
  match symbol_to_int name with
  | .error e => .error e
  | .ok name_int =>
      .ok (_add_optional_mint_params
        (0x45 :: (encode_varint name_int ++ encode_varint divisibility))
        symbol premine mint_cap mint_amount start_height end_height
        start_offset end_offset)

/-- The glyphstone payload built by transfer_glyph (lines 315-322):
b'T' + varint(block_height) + varint(tx_index) + varint(amount) +
varint(1); the output index is the literal constant 1. -/
def transfer_glyphstone_data (block_height tx_index amount : Nat) : List Nat :=
  0x54 :: (encode_varint block_height ++ encode_varint tx_index
    ++ encode_varint amount ++ encode_varint 1)

/-! ## Mint window (src/pythonGlyphs.py lines 394-415) -/

/-- The glyph_info dictionary fields that is_mint_open reads.  Absent
dictionary keys are None, modelled as none; minted_count and etch_height
are read with integer defaults by the callers, modelled as Nat. -/
structure GlyphInfo where
  mint_cap : Option Nat
  minted_count : Nat
  etch_height : Nat
  start_height : Option Nat
  end_height : Option Nat
  start_offset : Option Nat
  end_offset : Option Nat
deriving DecidableEq, Repr

/-- The local start_height of is_mint_open (line 412): the start_height
field if truthy, else etch_height + start_offset if start_offset is truthy,
else 0. -/
def effectiveStart (g : GlyphInfo) : Nat :=
  if truthy g.start_height then g.start_height.getD 0
  else if truthy g.start_offset then g.etch_height + g.start_offset.getD 0
  else 0

/-- The local end_height of is_mint_open (line 413): the end_height field
if truthy, else etch_height + end_offset if end_offset is truthy, else
float('inf'), modelled as none. -/
def effectiveEnd (g : GlyphInfo) : Option Nat :=
  if truthy g.end_height then g.end_height
  else if truthy g.end_offset then some (g.etch_height + g.end_offset.getD 0)
  else none

/-- is_mint_open (lines 394-415): closed when mint_cap is truthy and
minted_count has reached it, otherwise open iff
start_height <= current_height < end_height (an infinite end always
passes). -/
def is_mint_open (g : GlyphInfo) (current_height : Nat) : Bool :=
  if truthy g.mint_cap && decide (g.mint_cap.getD 0 ≤ g.minted_count) then false
  else
    decide (effectiveStart g ≤ current_height) &&
      (match effectiveEnd g with
       | some e => decide (current_height < e)
       | none => true)

/-- Effective start bound as the claim words it: start_height when the
field is set (present, regardless of value), else etch_height plus
start_offset when that is set, else 0. -/
def claimEffectiveStart (g : GlyphInfo) : Nat :=
  match g.start_height with
  | some s => s
  | none =>
    match g.start_offset with
    | some o => g.etch_height + o
    | none => 0

/-- Effective end bound as the claim words it; none stands for plus
infinity. -/
def claimEffectiveEnd (g : GlyphInfo) : Option Nat :=
  match g.end_height with
  | some e => some e
  | none =>
    match g.end_offset with
    | some o => some (g.etch_height + o)
    | none => none

/-- The claim's mint-window predicate: effective_start <= h < effective_end
and, when mint_cap is set, minted_count < mint_cap. -/
def ClaimMintOpen (g : GlyphInfo) (h : Nat) : Prop :=
  claimEffectiveStart g ≤ h ∧
  (match claimEffectiveEnd g with
   | some e => h < e
   | none => True) ∧
  (∀ c, g.mint_cap = some c → g.minted_count < c)

/-! ## Transaction outputs and the cenotaph guard
(src/pythonGlyphs.py lines 156-166, 579-590, 621-692 and 756-783;
src/htlcSwaps.py lines 277-357) -/

/-- A transaction output: value in satoshis and the serialized
scriptPubKey bytes. -/
structure CTxOut where
  nValue : Int
  scriptPubKey : List Nat
deriving DecidableEq, Repr

/-- Serialized data push inside a script, following Bitcoin push rules:
a single length byte for up to 75 bytes, OP_PUSHDATA1 up to 255 bytes,
OP_PUSHDATA2 (little endian) beyond. -/
def pushData (d : List Nat) : List Nat :=
  if d.length ≤ 75 then d.length :: d
  else if d.length ≤ 255 then 0x4C :: d.length :: d
  else 0x4D :: d.length % 256 :: d.length / 256 :: d

/-- create_glyphstone_output (lines 156-166): a zero-value output whose
script is OP_RETURN (0x6a), OP_13 (0x5d) and a push of the payload. -/
def create_glyphstone_output (glyphstone_data : List Nat) : CTxOut :=
  ⟨0, 0x6A :: 0x5D :: pushData glyphstone_data⟩

/-- is_cenotaph (pythonGlyphs.py lines 579-590, htlcSwaps.py lines
346-357): the script is shorter than two bytes, or does not start with
OP_RETURN followed by OP_13. -/
def is_cenotaph (o : CTxOut) : Bool :=
  match o.scriptPubKey with
  | b0 :: b1 :: _ => (b0 != 0x6A) || (b1 != 0x5D)
  | _ => true

/-- The burn output CTxOut(0, CScript([OP_RETURN])) substituted for the
whole output list when a cenotaph is detected. -/
def burn_output : CTxOut := ⟨0, [0x6A]⟩

/-- The output-list assembly of _construct_and_broadcast_transaction
(pythonGlyphs.py lines 656-680): glyphstone output, then the destination
output if present, then a change output if a change address was given and
input_value - destination_value - fee is positive; finally, if the
glyphstone output is a cenotaph, the whole list is replaced by the single
burn output.  The fee (tx_size * fee_per_byte in the source) enters only
through its value and is taken as a parameter. -/
def buildTxVout (glyphstone_output : CTxOut) (destination_output : Option CTxOut)
    (change_script : Option (List Nat)) (input_value fee : Int) : List CTxOut :=
  let outputs := glyphstone_output ::
    (match destination_output with | some d => [d] | none => [])
  let outputs :=
    match change_script with
    | some s =>
      let change := input_value -
        (match destination_output with | some d => d.nValue | none => 0) - fee
      if 0 < change then outputs ++ [⟨change, s⟩] else outputs
    | none => outputs
  if is_cenotaph glyphstone_output then [burn_output] else outputs

/-- The output-list assembly of _construct_and_broadcast_transaction in
htlcSwaps.py (lines 310-332): only the glyphstone output, an optional
change output of input_value - fee, and the same cenotaph replacement. -/
def buildTxVoutSwap (glyphstone_output : CTxOut)
    (change_script : Option (List Nat)) (input_value fee : Int) : List CTxOut :=
  let outputs := [glyphstone_output]
  let outputs :=
    match change_script with
    | some s =>
      let change := input_value - fee
      if 0 < change then outputs ++ [⟨change, s⟩] else outputs
    | none => outputs
  if is_cenotaph glyphstone_output then [burn_output] else outputs

/-! ## Destination output values (src/pythonGlyphs.py lines 270-273,
330-335 and 756-783) -/

/-- The destination output of mint_glyph (lines 270-273): value
int(amount * 10 ** divisibility). -/
def mint_destination_output (amount divisibility : Nat) (dest_script : List Nat) :
    CTxOut :=
  ⟨(amount * 10 ^ divisibility : Nat), dest_script⟩

/-- _create_glyph_output (lines 756-783): for a positive amount a
destination address is mandatory and the value is
int(amount * 10 ** divisibility); for amount 0 no output is produced. -/
def _create_glyph_output (amount divisibility : Nat)
    (dest_script : Option (List Nat)) : Except String (Option CTxOut) :=
  if 0 < amount then
    match dest_script with
    | none => .error "Destination address is required for a non-zero amount of Glyphs"
    | some s => .ok (some ⟨(amount * 10 ^ divisibility : Nat), s⟩)
  else .ok none

/-- The characters of the literal 'OP_RETURN' tested by
destination_address.startswith in transfer_glyph (line 331). -/
def opReturnChars : List Char :=
  ['O', 'P', '_', 'R', 'E', 'T', 'U', 'R', 'N']

/-- The destination output of transfer_glyph (lines 330-335): a zero-value
bare OP_RETURN output when the destination address starts with
'OP_RETURN', otherwise an output whose value is the raw glyph amount. -/
def transfer_destination_output (amount : Nat) (destination_address : List Char)
    (dest_script : List Nat) : CTxOut :=
  if destination_address.take 9 = opReturnChars then ⟨0, [0x6A]⟩
  else ⟨(amount : Nat), dest_script⟩

/-! ## HTLC swap engine (src/htlcSwaps.py lines 153-244) -/

/-- A script as the list of opcodes and data pushes handed to CScript. -/
inductive ScriptElem where
  | op (code : Nat)
  | push (bs : List Nat)
deriving DecidableEq, Repr

/-- create_htlc_script (lines 153-181): OP_DUP OP_HASH160 <secret_hash>
OP_EQUALVERIFY OP_CHECKSIG OP_IF <receiver_pubkey> OP_ELSE
OP_CHECKLOCKTIMEVERIFY OP_DROP <sender_pubkey> OP_ENDIF OP_CHECKSIG.
The timelock parameter is accepted but never pushed into the script. -/
def create_htlc_script (receiver_pubkey sender_pubkey secret_hash : List Nat)
    (timelock : Nat) : List ScriptElem :=
  [.op 0x76, .op 0xA9, .push secret_hash, .op 0x88, .op 0xAC, .op 0x63,
   .push receiver_pubkey, .op 0x67, .op 0xB1, .op 0x75, .push sender_pubkey,
   .op 0x68, .op 0xAC]

/-- The counterparty HTLC details read by participate_in_swap
(lines 229-232). -/
structure HtlcDetails where
  secret_hash : List Nat
  receiver_pubkey : List Nat
  timelock : Nat
deriving DecidableEq, Repr

/-- The timelock participate_in_swap uses for its mirror HTLC (line 232):
the counterparty's timelock, taken verbatim. -/
def participate_timelock (d : HtlcDetails) : Nat := d.timelock

/-- The mirror HTLC script published by participate_in_swap (line 234). -/
def participate_mirror_script (d : HtlcDetails) (sender_pubkey : List Nat) :
    List ScriptElem :=
  create_htlc_script d.receiver_pubkey sender_pubkey d.secret_hash
    (participate_timelock d)

/-! ## Spec-side name grammar (spec section 4.4) -/

/-- Spacer placement condition at index i of the claim: not at position 0,
not at the last position, not adjacent to another spacer. -/
def SpacerPlacementOk (s : List Char) (i : Nat) : Prop :=
  i ≠ 0 ∧ i ≠ s.length - 1 ∧ s.getD (i - 1) ' ' ≠ spacer ∧ s.getD (i + 1) ' ' ≠ spacer

end RustyGlyphs

deriving instance DecidableEq for Except

namespace RustyGlyphs

/-! ## Helper lemmas -/

theorem encode_varint_big {i : Nat} (h : 127 < i) :
    encode_varint i = (i % 128 + 128) :: encode_varint (i / 128) := by
  rw [encode_varint]
  simp [h]

theorem encode_varint_small {i : Nat} (h : i ≤ 127) : encode_varint i = [i] := by
  rw [encode_varint]
  simp [Nat.not_lt.mpr h]

theorem intToSymbolGo_pos {n : Nat} (h : n ≠ 0) :
    intToSymbolGo n = intToSymbolGo ((n - 1) / 26) ++ [alphabet.getD ((n - 1) % 26) 'A'] := by
  rw [intToSymbolGo]
  simp [h]

theorem intToSymbolGo_zero : intToSymbolGo 0 = [] := by
  rw [intToSymbolGo]
  simp

/-! ### Varint lemmas -/

theorem lor_shiftLeft_distrib (x y s : Nat) : (x ||| y) <<< s = (x <<< s) ||| (y <<< s) := by
  apply Nat.eq_of_testBit_eq
  intro i
  simp [Nat.testBit_shiftLeft, Nat.testBit_lor, Bool.and_or_distrib_left]

theorem lor_mod_div_128 (n : Nat) : (n % 128) ||| ((n / 128) <<< 7) = n := by
  apply Nat.eq_of_testBit_eq
  intro i
  have h1 : n % 128 = n % 2 ^ 7 := by norm_num
  have h2 : n / 128 = n >>> 7 := by
    rw [Nat.shiftRight_eq_div_pow]
  rw [Nat.testBit_lor, h1, Nat.testBit_mod_two_pow, Nat.testBit_shiftLeft, h2,
    Nat.testBit_shiftRight]
  by_cases h : i < 7
  · have h7 : ¬ (7 ≤ i) := by omega
    simp [h, h7]
  · have h7 : 7 ≤ i := by omega
    have he : 7 + (i - 7) = i := by omega
    simp [h, h7, he]

theorem shiftLeft_shiftLeft (x a b : Nat) : (x <<< a) <<< b = x <<< (a + b) := by
  apply Nat.eq_of_testBit_eq
  intro i
  simp only [Nat.testBit_shiftLeft]
  by_cases hb : b ≤ i
  · by_cases ha : a ≤ i - b
    · have h1 : a + b ≤ i := by omega
      have h2 : i - b - a = i - (a + b) := by omega
      simp [hb, ha, h1, h2]
    · have h1 : ¬ (a + b ≤ i) := by omega
      simp [hb, ha, h1]
  · have h1 : ¬ (a + b ≤ i) := by omega
    simp [hb, h1]

theorem lor_split_128 (n shift : Nat) :
    (n % 128) <<< shift ||| (n / 128) <<< (shift + 7) = n <<< shift := by
  calc (n % 128) <<< shift ||| (n / 128) <<< (shift + 7)
      = (n % 128) <<< shift ||| ((n / 128) <<< 7) <<< shift := by
        rw [shiftLeft_shiftLeft, Nat.add_comm 7 shift]
    _ = ((n % 128) ||| ((n / 128) <<< 7)) <<< shift := (lor_shiftLeft_distrib _ _ _).symm
    _ = n <<< shift := by rw [lor_mod_div_128]

theorem decodeVarintGo_encode (n : Nat) :
    ∀ rest shift acc, decodeVarintGo (encode_varint n ++ rest) shift acc
      = acc ||| (n <<< shift) := by
  induction n using Nat.strong_induction_on with
  | _ n ih =>
    intro rest shift acc
    rw [encode_varint]
    by_cases h : 127 < n
    · simp only [h, dif_pos, List.cons_append]
      have hb : ¬ (n % 128 + 128 < 128) := by omega
      have hm : (n % 128 + 128) % 128 = n % 128 := by omega
      simp only [decodeVarintGo, hm, if_neg hb]
      rw [ih (n / 128) (Nat.div_lt_self (by omega) (by omega)) rest (shift + 7)]
      rw [Nat.lor_assoc, lor_split_128]
    · simp only [h, dif_neg, List.cons_append, List.nil_append]
      have hb : n < 128 := by omega
      simp [decodeVarintGo, hb, Nat.mod_eq_of_lt hb]

theorem decode_varint_encode (n : Nat) (rest : List Nat) :
    decode_varint (encode_varint n ++ rest) = n := by
  rw [decode_varint, decodeVarintGo_encode]
  simp

theorem decodeVarintSpecGo_encode :
    ∀ (k n : Nat), n < 128 ^ (k + 1) →
    ∀ rest shift acc, shift + 7 * k ≤ 63 →
      decodeVarintSpecGo (encode_varint n ++ rest) shift acc
        = .ok (acc ||| (n <<< shift), rest) := by
  intro k
  induction k with
  | zero =>
    intro n hn rest shift acc hs
    have hb : n < 128 := by simpa using hn
    rw [encode_varint]
    have h127 : ¬ (127 < n) := by omega
    simp only [h127, dif_neg, List.cons_append, List.nil_append]
    have hsh : ¬ (63 < shift) := by omega
    simp [decodeVarintSpecGo, hsh, hb, Nat.mod_eq_of_lt hb]
  | succ k ih =>
    intro n hn rest shift acc hs
    rw [encode_varint]
    by_cases h : 127 < n
    · simp only [h, dif_pos, List.cons_append]
      have hsh : ¬ (63 < shift) := by omega
      have hb : ¬ (n % 128 + 128 < 128) := by omega
      have hm : (n % 128 + 128) % 128 = n % 128 := by omega
      simp only [decodeVarintSpecGo, hsh, if_neg hb, if_false, ite_false, hm]
      have hdiv : n / 128 < 128 ^ (k + 1) := by
        rw [Nat.div_lt_iff_lt_mul (by omega)]
        calc n < 128 ^ (k + 1 + 1) := hn
          _ = 128 ^ (k + 1) * 128 := by ring
      rw [ih (n / 128) hdiv rest (shift + 7) _ (by omega)]
      rw [Nat.lor_assoc, lor_split_128]
    · simp only [h, dif_neg, List.cons_append, List.nil_append]
      have hsh : ¬ (63 < shift) := by omega
      have hb : n < 128 := by omega
      simp [decodeVarintSpecGo, hsh, hb, Nat.mod_eq_of_lt hb]

theorem decode_varint_pair_encode (n : Nat) (hn : n < 2 ^ 63) (rest : List Nat) :
    decode_varint_pair (encode_varint n ++ rest) = .ok (n, rest) := by
  have h : n < 128 ^ (8 + 1) := by
    calc n < 2 ^ 63 := hn
      _ = 128 ^ 9 := by norm_num
  rw [decode_varint_pair, decodeVarintSpecGo_encode 8 n h rest 0 0 (by omega)]
  simp


end RustyGlyphs

namespace RustyGlyphs

/-! ## Claim C1 -/

/-- C1: whenever is_cenotaph holds of the glyphstone output, the assembled
output list of _construct_and_broadcast_transaction — in both the token and
the swap builder — is exactly the single zero-value OP_RETURN burn output,
irrespective of the declared destination output and of any change output
appended earlier. -/
theorem cenotaph_guard_burns_all_outputs
    (g : CTxOut) (dest : Option CTxOut) (chg : Option (List Nat))
    (input_value fee : Int) (h : is_cenotaph g = true) :
    buildTxVout g dest chg input_value fee = [⟨0, [0x6A]⟩] ∧
    buildTxVoutSwap g chg input_value fee = [⟨0, [0x6A]⟩] := by
  constructor <;> simp [buildTxVout, buildTxVoutSwap, h, burn_output]

/-- C1 witness: a malformed glyphstone output (script [0x51]) with a
declared destination and an appended change output still burns down to the
single burn output. -/
theorem cenotaph_guard_burns_all_outputs_witness :
    is_cenotaph ⟨0, [0x51]⟩ = true ∧
    buildTxVout ⟨0, [0x51]⟩ (some ⟨700, [0x01]⟩) (some [0x02]) 100000 150
      = [⟨0, [0x6A]⟩] ∧
    buildTxVoutSwap ⟨0, [0x51]⟩ (some [0x02]) 100000 150 = [⟨0, [0x6A]⟩] :=
  ⟨rfl,
   (cenotaph_guard_burns_all_outputs ⟨0, [0x51]⟩ (some ⟨700, [0x01]⟩)
     (some [0x02]) 100000 150 rfl).1,
   (cenotaph_guard_burns_all_outputs ⟨0, [0x51]⟩ (some ⟨700, [0x01]⟩)
     (some [0x02]) 100000 150 rfl).2⟩

/-! ## Claim C2 -/

/-- C2: the source's decode_varint silently returns a bare integer.  On the
stream 0x80, which ends with the continuation bit set, it returns 0 instead
of failing with Truncated; on the empty stream it returns 0; on eleven 0xFF
bytes it accumulates 2 ^ 77 - 1 with no Overflow check and exposes no
remaining tail.  The decoder the spec describes (and the source's own
callers unpack) reports Truncated and Overflow there and returns the
(value, rest) pair. -/
theorem decode_varint_code_bug_eval :
    decode_varint [0x80] = 0 ∧
    decode_varint [] = 0 ∧
    decode_varint (List.replicate 11 0xFF) = 2 ^ 77 - 1 ∧
    decode_varint_pair [0x80] = .error .truncated ∧
    decode_varint_pair [] = .error .truncated ∧
    decode_varint_pair (List.replicate 11 0xFF) = .error .overflow ∧
    decode_varint_pair [0xAC, 0x02, 0x99] = .ok (300, [0x99]) := by decide

/-! ## Claim C7 -/

/-- C7: the value round-trip holds for the codec as implemented: decoding
encode_varint(n) yields n for every n, and the four literal encodings
match; decode_varint returns only this value and no remaining tail. -/
theorem varint_value_roundtrip :
    (∀ n : Nat, decode_varint (encode_varint n) = n) ∧
    encode_varint 0 = [0x00] ∧ encode_varint 127 = [0x7F] ∧
    encode_varint 128 = [0x80, 0x01] ∧ encode_varint 300 = [0xAC, 0x02] := by
  refine ⟨fun n => ?_, ?_, ?_, ?_, ?_⟩
  · have h := decode_varint_encode n []
    simpa using h
  · norm_num [encode_varint_small]
  · norm_num [encode_varint_small]
  · norm_num [encode_varint_big, encode_varint_small]
  · norm_num [encode_varint_big, encode_varint_small]

/-! ## Claim C10 -/

/-- C10: the fourth varint field of every transfer glyphstone payload is
the constant 1: after the kind tag 0x54, chained varint decoding reads
block_height, tx_index and amount and then always 1, with nothing left,
whatever arguments the caller supplies. -/
theorem transfer_output_index_fixed (b t a : Nat)
    (hb : b < 2 ^ 63) (ht : t < 2 ^ 63) (ha : a < 2 ^ 63) :
    (transfer_glyphstone_data b t a).head? = some 0x54 ∧
    ∃ r1 r2 r3,
      decode_varint_pair ((transfer_glyphstone_data b t a).tail) = .ok (b, r1) ∧
      decode_varint_pair r1 = .ok (t, r2) ∧
      decode_varint_pair r2 = .ok (a, r3) ∧
      decode_varint_pair r3 = .ok (1, []) := by
  refine ⟨rfl, encode_varint t ++ (encode_varint a ++ encode_varint 1),
    encode_varint a ++ encode_varint 1, encode_varint 1, ?_, ?_, ?_, ?_⟩
  · show decode_varint_pair (encode_varint b ++ encode_varint t
      ++ encode_varint a ++ encode_varint 1) = _
    rw [List.append_assoc, List.append_assoc]
    exact decode_varint_pair_encode b hb _
  · exact decode_varint_pair_encode t ht _
  · exact decode_varint_pair_encode a ha _
  · have h := decode_varint_pair_encode 1 (by norm_num) []
    simpa using h

/-- C10 witness: the spec's seed transfer of 42 units of glyph 840000:17. -/
theorem transfer_output_index_fixed_witness :
    (840000 : Nat) < 2 ^ 63 ∧ (17 : Nat) < 2 ^ 63 ∧ (42 : Nat) < 2 ^ 63 ∧
    ((transfer_glyphstone_data 840000 17 42).head? = some 0x54 ∧
     ∃ r1 r2 r3,
       decode_varint_pair ((transfer_glyphstone_data 840000 17 42).tail)
         = .ok (840000, r1) ∧
       decode_varint_pair r1 = .ok (17, r2) ∧
       decode_varint_pair r2 = .ok (42, r3) ∧
       decode_varint_pair r3 = .ok (1, [])) :=
  ⟨by norm_num, by norm_num, by norm_num,
   transfer_output_index_fixed 840000 17 42 (by norm_num) (by norm_num) (by norm_num)⟩

/-! ## Claim C9 -/

/-- C9 counterexample: participate_in_swap adopts the counterparty's
timelock t = 100 verbatim, so the timelock its mirror HTLC construction
uses is not strictly shorter than t; moreover create_htlc_script emits an
identical script for timelocks 100 and 5, committing the script to no
timelock value at all. -/
theorem participate_timelock_counterexample :
    participate_timelock ⟨[0xAA], [0xBB], 100⟩ = 100 ∧
    ¬ participate_timelock ⟨[0xAA], [0xBB], 100⟩ < 100 ∧
    create_htlc_script [0xBB] [0xCC] [0xAA] 100
      = create_htlc_script [0xBB] [0xCC] [0xAA] 5 :=
  ⟨rfl, by decide, rfl⟩

/-- C9 amended: the mirror HTLC of participate_in_swap is built with the
counterparty's timelock taken unchanged — equal, not strictly shorter —
and create_htlc_script ignores its timelock argument entirely, so no
timelock ordering is enforced anywhere in the construction. -/
theorem participate_mirror_uses_counterparty_timelock :
    (∀ d sender, participate_mirror_script d sender
        = create_htlc_script d.receiver_pubkey sender d.secret_hash d.timelock) ∧
    (∀ d, participate_timelock d = d.timelock) ∧
    (∀ r s h t t', create_htlc_script r s h t = create_htlc_script r s h t') :=
  ⟨fun _ _ => rfl, fun _ => rfl, fun _ _ _ _ _ => rfl⟩

/-! ## Claim C5 -/

/-- C5 counterexample: transferring 5 units of a glyph whose divisibility
is 2 produces a destination output whose value is the raw amount 5 and not
5 * 10 ^ 2 = 500. -/
theorem transfer_value_counterexample :
    (transfer_destination_output 5 ['b', 'c', '1', 'q'] [0x51]).nValue = 5 ∧
    (transfer_destination_output 5 ['b', 'c', '1', 'q'] [0x51]).nValue
      ≠ ((5 * 10 ^ 2 : Nat) : Int) := by decide

/-- C5 amended: the etch-premine and mint destination outputs carry
amount * 10 ^ divisibility; the transfer destination output carries the
raw amount (no divisibility scaling); the OP_RETURN burn variants carry
value 0. -/
theorem glyph_output_values :
    (∀ a d s, (mint_destination_output a d s).nValue = ((a * 10 ^ d : Nat) : Int)) ∧
    (∀ a d s, 0 < a →
        _create_glyph_output a d (some s)
          = .ok (some ⟨((a * 10 ^ d : Nat) : Int), s⟩)) ∧
    (∀ d s, _create_glyph_output 0 d s = .ok none) ∧
    (∀ a addr s, addr.take 9 = opReturnChars →
        transfer_destination_output a addr s = ⟨0, [0x6A]⟩) ∧
    (∀ a addr s, addr.take 9 ≠ opReturnChars →
        (transfer_destination_output a addr s).nValue = (a : Int)) := by
  refine ⟨fun a d s => rfl, fun a d s h => ?_, fun d s => rfl,
    fun a addr s h => ?_, fun a addr s h => ?_⟩
  · simp [_create_glyph_output, h]
  · simp [transfer_destination_output, h]
  · simp [transfer_destination_output, h]

/-- C5 witness: minting 3 units at divisibility 2 yields value 300; a
transfer to an address starting with OP_RETURN yields the zero-value burn
output. -/
theorem glyph_output_values_witness :
    (0 : Nat) < 3 ∧
    _create_glyph_output 3 2 (some [0x51]) = .ok (some ⟨300, [0x51]⟩) ∧
    (opReturnChars.take 9 = opReturnChars ∧
     transfer_destination_output 7 opReturnChars [0x51] = ⟨0, [0x6A]⟩) :=
  ⟨by decide, glyph_output_values.2.1 3 2 [0x51] (by decide),
   rfl, glyph_output_values.2.2.2.1 7 opReturnChars [0x51] rfl⟩

end RustyGlyphs

namespace RustyGlyphs

/-! ## Claim C3 -/

/-- C3 counterexample: the spec's seed etch (TESTCOIN, divisibility 2,
symbol "¤", mint_cap 1000, mint_amount 10, start_offset 0, end_offset
1000) does not produce the claimed payload: TESTCOIN encodes to
162415731180, not 3299942111, and the start_offset of 0 is falsy in the
source, so no O field is emitted at all. -/
theorem etch_payload_counterexample :
    etch_glyphstone_data "TESTCOIN".toList 2 "¤".toList 0
        (some 1000) (some 10) none none (some 0) (some 1000)
      ≠ .ok (0x45 :: (encode_varint 3299942111 ++ encode_varint 2
          ++ utf8 "¤".toList ++ (0x43 :: encode_varint 1000)
          ++ (0x41 :: encode_varint 10) ++ (0x4F :: encode_varint 0)
          ++ (0x46 :: encode_varint 1000))) := by
  have e0 : encode_varint 3299942111 = [223, 189, 196, 165, 12] := by
    norm_num [encode_varint_big, encode_varint_small]
  have e1 : encode_varint 162415731180 = [236, 195, 237, 133, 221, 4] := by
    norm_num [encode_varint_big, encode_varint_small]
  have e2 : encode_varint 2 = [2] := by norm_num [encode_varint_small]
  have e3 : encode_varint 1000 = [232, 7] := by
    norm_num [encode_varint_big, encode_varint_small]
  have e4 : encode_varint 10 = [10] := by norm_num [encode_varint_small]
  have e5 : encode_varint 0 = [0] := by norm_num [encode_varint_small]
  have hs : symbol_to_int "TESTCOIN".toList = .ok 162415731180 := by decide
  simp only [etch_glyphstone_data, hs, _add_optional_mint_params, optTagField,
    truthy, e0, e1, e2, e3, e4, e5]
  decide

/-- C3 amended: the seed etch produces the payload
E, varint(162415731180), varint(2), UTF-8 of the symbol, then the set
tagged fields in the fixed order C, A, F — the zero start_offset counts as
unset and contributes no O field; and in general a tagged field with a
non-zero value is emitted as its tag followed by its varint, while a
zero-valued or absent field is omitted. -/
theorem etch_payload_field_order :
    etch_glyphstone_data "TESTCOIN".toList 2 "¤".toList 0
        (some 1000) (some 10) none none (some 0) (some 1000)
      = .ok (0x45 :: (encode_varint 162415731180 ++ encode_varint 2
          ++ utf8 "¤".toList ++ (0x43 :: encode_varint 1000)
          ++ (0x41 :: encode_varint 10) ++ (0x46 :: encode_varint 1000))) ∧
    (∀ tag v, optTagField tag (some (v + 1)) = tag :: encode_varint (v + 1)) ∧
    (∀ tag, optTagField tag (some 0) = []) ∧
    (∀ tag, optTagField tag none = []) := by
  refine ⟨?_, fun tag v => ?_, fun tag => rfl, fun tag => rfl⟩
  · have e1 : encode_varint 162415731180 = [236, 195, 237, 133, 221, 4] := by
      norm_num [encode_varint_big, encode_varint_small]
    have e2 : encode_varint 2 = [2] := by norm_num [encode_varint_small]
    have e3 : encode_varint 1000 = [232, 7] := by
      norm_num [encode_varint_big, encode_varint_small]
    have e4 : encode_varint 10 = [10] := by norm_num [encode_varint_small]
    have hs : symbol_to_int "TESTCOIN".toList = .ok 162415731180 := by decide
    simp only [etch_glyphstone_data, hs, _add_optional_mint_params, optTagField,
      truthy, Option.getD_some, e1, e2, e3, e4]
    decide
  · simp [optTagField, truthy]

end RustyGlyphs

namespace RustyGlyphs

/-! ## Claim C4 -/

/-- C4 counterexample: a glyph_info with mint_cap set to 0 and
minted_count 5.  The claim's predicate is closed there (5 < 0 fails), but
is_mint_open treats the zero cap as falsy, skips the cap check entirely
and reports the mint open at height 10. -/
theorem mint_open_counterexample :
    is_mint_open ⟨some 0, 5, 0, none, none, none, none⟩ 10 = true ∧
    ¬ ClaimMintOpen ⟨some 0, 5, 0, none, none, none, none⟩ 10 := by
  refine ⟨rfl, fun h => ?_⟩
  have hc := h.2.2 0 rfl
  omega

/-- C4 amended: is_mint_open opens exactly when effective_start <= h,
h is below the effective end when one exists, and minted_count < mint_cap
whenever mint_cap is set to a non-zero value — where a bound field that is
absent or equal to 0 counts as unset: effective_start is start_height when
non-zero, else etch_height + start_offset when start_offset is non-zero,
else 0, and the effective end is end_height when non-zero, else
etch_height + end_offset when end_offset is non-zero, else unbounded. -/
theorem mint_open_characterisation (g : GlyphInfo) (h : Nat) :
    is_mint_open g h = true ↔
      (effectiveStart g ≤ h ∧
       (∀ e, effectiveEnd g = some e → h < e) ∧
       (∀ c, g.mint_cap = some c → c ≠ 0 → g.minted_count < c)) := by
  rw [is_mint_open]
  by_cases hcap : (truthy g.mint_cap && decide (g.mint_cap.getD 0 ≤ g.minted_count)) = true
  · rw [if_pos hcap]
    constructor
    · intro hfalse
      exact absurd hfalse (by simp)
    · rintro ⟨-, -, h3⟩
      rcases hg : g.mint_cap with - | c
      · rw [hg] at hcap
        simp [truthy] at hcap
      · rw [hg] at hcap
        simp only [truthy, Bool.and_eq_true, bne_iff_ne, ne_eq, decide_eq_true_eq,
          Option.getD_some] at hcap
        have := h3 c hg hcap.1
        omega
  · rw [if_neg hcap]
    have hcap' : ∀ c, g.mint_cap = some c → c ≠ 0 → g.minted_count < c := by
      intro c hg hc0
      rw [hg] at hcap
      simp only [truthy, Bool.and_eq_true, bne_iff_ne, ne_eq, decide_eq_true_eq,
        Option.getD_some, not_and, not_le] at hcap
      exact hcap hc0
    constructor
    · intro hb
      rw [Bool.and_eq_true] at hb
      refine ⟨by simpa using hb.1, ?_, hcap'⟩
      intro e he
      rw [he] at hb
      simpa using hb.2
    · rintro ⟨h1, h2, -⟩
      rw [Bool.and_eq_true]
      refine ⟨by simpa using h1, ?_⟩
      rcases he : effectiveEnd g with - | e
      · simp
      · simpa using h2 e he

end RustyGlyphs

namespace RustyGlyphs

/-! ## Symbol codec lemmas -/

theorem alphabet_getD_spec : ∀ r : Nat, r < 26 →
    (alphabet.getD r 'A').toNat = 65 + r ∧
    isUpperAlpha (alphabet.getD r 'A') = true ∧
    alphabet.getD r 'A' ≠ spacer := by decide

theorem valueRev_intToSymbolGo : ∀ n : Nat, valueRev (intToSymbolGo n).reverse = n := by
  intro n
  induction n using Nat.strong_induction_on with
  | _ n ih =>
    by_cases h : n = 0
    · subst h
      rw [intToSymbolGo_zero]
      rfl
    · rw [intToSymbolGo_pos h, List.reverse_append]
      simp only [List.reverse_cons, List.reverse_nil, List.nil_append,
        List.singleton_append]
      rw [valueRev]
      rw [ih ((n - 1) / 26) (Nat.lt_of_le_of_lt (Nat.div_le_self _ _) (by omega))]
      have hr : (n - 1) % 26 < 26 := Nat.mod_lt _ (by omega)
      rw [letterVal, (alphabet_getD_spec _ hr).1]
      omega

theorem intToSymbolGo_chars : ∀ n : Nat, ∀ c ∈ intToSymbolGo n,
    isUpperAlpha c = true ∧ c ≠ spacer := by
  intro n
  induction n using Nat.strong_induction_on with
  | _ n ih =>
    intro c hc
    by_cases h : n = 0
    · subst h
      rw [intToSymbolGo_zero] at hc
      exact absurd hc (List.not_mem_nil c)
    · rw [intToSymbolGo_pos h] at hc
      rcases List.mem_append.mp hc with h1 | h2
      · exact ih _ (Nat.lt_of_le_of_lt (Nat.div_le_self _ _) (by omega)) c h1
      · have hc2 : c = alphabet.getD ((n - 1) % 26) 'A' := by simpa using h2
        subst hc2
        have hr : (n - 1) % 26 < 26 := Nat.mod_lt _ (by omega)
        exact ⟨(alphabet_getD_spec _ hr).2.1, (alphabet_getD_spec _ hr).2.2⟩

theorem intToSymbolGo_length : ∀ k n : Nat, 25 * n + 1 < 26 ^ (k + 1) →
    (intToSymbolGo n).length ≤ k := by
  intro k
  induction k with
  | zero =>
    intro n hn
    have h0 : n = 0 := by
      have : (26 : Nat) ^ (0 + 1) = 26 := by norm_num
      omega
    subst h0
    simp [intToSymbolGo_zero]
  | succ k ih =>
    intro n hn
    by_cases h : n = 0
    · subst h
      simp [intToSymbolGo_zero]
    · rw [intToSymbolGo_pos h, List.length_append, List.length_singleton]
      have hq : 26 * ((n - 1) / 26) ≤ n - 1 := by
        have := Nat.div_mul_le_self (n - 1) 26
        omega
      have hpow : (26 : Nat) ^ (k + 1 + 1) = 26 * 26 ^ (k + 1) := by ring
      have hlt : 25 * ((n - 1) / 26) + 1 < 26 ^ (k + 1) := by
        have h26 : 26 * (25 * ((n - 1) / 26) + 1) < 26 * 26 ^ (k + 1) := by omega
        exact Nat.lt_of_mul_lt_mul_left h26
      have := ih _ hlt
      omega

theorem valid_of_letters (s : List Char) (h1 : s ≠ []) (h2 : s.length ≤ 26)
    (h3 : ∀ c ∈ s, isUpperAlpha c = true) : is_valid_glyph_name s = true := by
  rw [is_valid_glyph_name]
  have he : s.isEmpty = false := by
    cases s with
    | nil => exact absurd rfl h1
    | cons a l => rfl
  rw [if_neg (by simp [he]; omega)]
  have hfilter : s.filter isUpperAlpha = s := List.filter_eq_self.mpr h3
  have hcount : letterCount s = s.length := by rw [letterCount, hfilter]
  have hpos : 0 < s.length := List.length_pos.mpr h1
  have hok : nameCharsOk s = true := by
    rw [nameCharsOk, List.all_eq_true]
    intro i hi
    rw [List.mem_range] at hi
    have hmem : s.getD i ' ' ∈ s := by
      rw [List.getD_eq_getElem s ' ' hi]
      exact List.getElem_mem hi
    have hup : isUpperAlpha (s.getD i ' ') = true := h3 _ hmem
    simp only [List.getD, List.get?_eq_getElem?] at hup
    simp [hup]
  rw [hok]
  simp [hcount]
  omega

/-! ## Claim C6 -/

/-- C6 counterexample: symbol_to_int maps TESTCOIN (and TEST•COIN) to
162415731180, not to the 3299942111 the claim states. -/
theorem symbol_testcoin_counterexample :
    symbol_to_int "TESTCOIN".toList = .ok 162415731180 ∧
    symbol_to_int "TESTCOIN".toList ≠ .ok 3299942111 := by decide

/-- C6 amended: for every n in [1, 26 ^ 26], int_to_symbol n is a valid
glyph name with no spacers and symbol_to_int inverts it; A maps to 1, Z to
26, AA to 27, and TEST•COIN and TESTCOIN both map to 162415731180 (not
3299942111). -/
theorem symbol_roundtrip :
    (∀ n : Nat, 1 ≤ n → n ≤ 26 ^ 26 →
      ∃ s, int_to_symbol n = .ok s ∧
        is_valid_glyph_name s = true ∧
        (∀ c ∈ s, c ≠ spacer) ∧
        symbol_to_int s = .ok n) ∧
    symbol_to_int ['A'] = .ok 1 ∧
    symbol_to_int ['Z'] = .ok 26 ∧
    symbol_to_int ['A', 'A'] = .ok 27 ∧
    symbol_to_int "TEST•COIN".toList = symbol_to_int "TESTCOIN".toList ∧
    symbol_to_int "TESTCOIN".toList = .ok 162415731180 := by
  refine ⟨?_, by decide, by decide, by decide, by decide, by decide⟩
  intro n h1 h2
  refine ⟨intToSymbolGo n, ?_, ?_, ?_, ?_⟩
  · rw [int_to_symbol, if_neg (by omega)]
  · apply valid_of_letters
    · intro hnil
      have := valueRev_intToSymbolGo n
      rw [hnil] at this
      simp [valueRev] at this
      omega
    · apply intToSymbolGo_length 26 n
      have hpow : (26 : Nat) ^ (26 + 1) = 26 * 26 ^ 26 := by ring
      omega
    · exact fun c hc => (intToSymbolGo_chars n c hc).1
  · exact fun c hc => (intToSymbolGo_chars n c hc).2
  · rw [symbol_to_int]
    have hvalid : is_valid_glyph_name (intToSymbolGo n) = true := by
      apply valid_of_letters
      · intro hnil
        have := valueRev_intToSymbolGo n
        rw [hnil] at this
        simp [valueRev] at this
        omega
      · apply intToSymbolGo_length 26 n
        have hpow : (26 : Nat) ^ (26 + 1) = 26 * 26 ^ 26 := by ring
        omega
      · exact fun c hc => (intToSymbolGo_chars n c hc).1
    rw [if_pos hvalid]
    have hns : removeSpacers (intToSymbolGo n) = intToSymbolGo n := by
      apply List.filter_eq_self.mpr
      intro c hc
      simpa using (intToSymbolGo_chars n c hc).2
    rw [hns, valueRev_intToSymbolGo]

/-- C6 witness: the round trip at n = 27 gives the two-letter name AA. -/
theorem symbol_roundtrip_witness :
    (1 : Nat) ≤ 27 ∧ (27 : Nat) ≤ 26 ^ 26 ∧
    ∃ s, int_to_symbol 27 = .ok s ∧
      is_valid_glyph_name s = true ∧
      (∀ c ∈ s, c ≠ spacer) ∧
      symbol_to_int s = .ok 27 :=
  ⟨by norm_num, by norm_num,
   symbol_roundtrip.1 27 (by norm_num) (by norm_num)⟩

end RustyGlyphs

namespace RustyGlyphs

/-! ## Claim C8 -/

/-- C8 counterexample: the single character U+00C0 (À) is a Python
uppercase letter, so is_valid_glyph_name accepts the name, although the
character is neither in A-Z nor the spacer as the claim requires. -/
theorem valid_name_counterexample :
    is_valid_glyph_name ['À'] = true ∧
    ¬ (('A' ≤ 'À' ∧ 'À' ≤ 'Z') ∨ 'À' = spacer) := by decide

theorem nameCharsOk_body_iff (s : List Char) (i : Nat) :
    ((if isUpperAlpha (s.getD i ' ') then true
      else if s.getD i ' ' = spacer then
        !(i == 0 || i == s.length - 1 || s.getD (i - 1) ' ' == spacer
          || s.getD (i + 1) ' ' == spacer)
      else false) = true) ↔
    (isUpperAlpha (s.getD i ' ') = true ∨
      (s.getD i ' ' = spacer ∧ SpacerPlacementOk s i)) := by
  simp only [SpacerPlacementOk, List.getD_eq_getElem?_getD, ne_eq]
  by_cases hu : isUpperAlpha ((s[i]?).getD ' ') = true
  · simp [hu]
  · rw [if_neg hu]
    by_cases hsp : (s[i]?).getD ' ' = spacer
    · rw [if_pos hsp]
      have hns : isUpperAlpha spacer = false := by decide
      simp [hu, hsp, hns, not_or, and_assoc]
    · rw [if_neg hsp]
      simp [hu, hsp]

/-- C8 amended: is_valid_glyph_name accepts exactly the nonempty names of
at most 26 characters in which every character is a Python uppercase
letter (any Unicode uppercase alphabetic character, not only A-Z) or the
spacer, no spacer sits at position 0, the last position, or adjacent to
another spacer, and at least one character is a letter. -/
theorem valid_name_characterisation (s : List Char) :
    is_valid_glyph_name s = true ↔
      (s ≠ [] ∧ s.length ≤ 26 ∧
       (∀ i, i < s.length →
          isUpperAlpha (s.getD i ' ') = true ∨
          (s.getD i ' ' = spacer ∧ SpacerPlacementOk s i)) ∧
       (∃ c ∈ s, isUpperAlpha c = true)) := by
  rw [is_valid_glyph_name]
  by_cases hnil : s = []
  · subst hnil
    simp
  · have he : s.isEmpty = false := by
      cases s with
      | nil => exact absurd rfl hnil
      | cons a l => rfl
    have hchars : nameCharsOk s = true ↔
        (∀ i, i < s.length →
          isUpperAlpha (s.getD i ' ') = true ∨
          (s.getD i ' ' = spacer ∧ SpacerPlacementOk s i)) := by
      rw [nameCharsOk, List.all_eq_true]
      constructor
      · intro h i hi
        exact (nameCharsOk_body_iff s i).mp (h i (List.mem_range.mpr hi))
      · intro h i hi
        exact (nameCharsOk_body_iff s i).mpr (h i (List.mem_range.mp hi))
    have hexists : 0 < letterCount s ↔ (∃ c ∈ s, isUpperAlpha c = true) := by
      rw [letterCount, List.length_pos]
      constructor
      · intro h
        obtain ⟨x, hx⟩ := List.exists_mem_of_ne_nil _ h
        have hm := List.mem_filter.mp hx
        exact ⟨x, hm.1, hm.2⟩
      · rintro ⟨c, hc, hup⟩
        intro hfil
        have hmem : c ∈ List.filter isUpperAlpha s := List.mem_filter.mpr ⟨hc, hup⟩
        rw [hfil] at hmem
        exact absurd hmem (List.not_mem_nil c)
    have hle : letterCount s ≤ s.length := List.length_filter_le _ _
    by_cases hlen : 26 < s.length
    · rw [if_pos (by simp [he, hlen])]
      constructor
      · intro h
        exact absurd h (by simp)
      · rintro ⟨-, h2, -, -⟩
        omega
    · rw [if_neg (by simp [he]; omega)]
      rw [Bool.and_eq_true, Bool.and_eq_true, decide_eq_true_eq, decide_eq_true_eq]
      constructor
      · rintro ⟨hok, hpos, -⟩
        exact ⟨hnil, by omega, hchars.mp hok, hexists.mp hpos⟩
      · rintro ⟨-, hl, hix, hex⟩
        exact ⟨hchars.mpr hix, hexists.mpr hex, by omega⟩

end RustyGlyphs
